import Mathlib

/-!
Verification of the FMI 2.0 `modelDescription.xml` parser of NTNU-IHB/FMI4cpp
(`src/fmi4cpp/fmi2/xml/ModelDescriptionParser.cpp`).

The parser walks a `boost::property_tree::ptree` obtained from `read_xml`.
We embed the property tree shallowly: a node has a data string and an ordered
list of keyed children; XML attributes live under the special child key
`<xmlattr>`, exactly as boost stores them.  `node.get<T>(path)` becomes a
path lookup (splitting the path string on `.`) followed by a string-to-T
translation; the one-argument form fails (`ptree_bad_path` / `ptree_bad_data`
exceptions become `Except.error`), the defaulted form swallows both failure
modes, and `get_optional` yields `none` on either failure, as in boost.
-/

/-- Model of `boost::property_tree::ptree`: a data string plus an ordered list
of keyed children.  Attributes of an XML element are the children of its
`<xmlattr>` child, matching how `read_xml` populates the tree. -/
inductive PTree where
  | mk (data : String) (children : List (String × PTree))

/-- The node's own data string (`ptree::data()`). -/
def PTree.data : PTree → String
  | .mk d _ => d

/-- The node's ordered children (`for (const ptree::value_type &v : node)`). -/
def PTree.children : PTree → List (String × PTree)
  | .mk _ c => c

/-- Errors the parser can raise: `ptree_bad_path` (required path missing),
`ptree_bad_data` (attribute present but fails typed coercion), and the
`std::runtime_error` thrown by `parseScalarVariable`. -/
inductive ParseError where
  | badPath (path : String)
  | badData (value : String)
  | fatal (msg : String)
deriving DecidableEq, Repr

/-- Split a character list at every character satisfying `p`, keeping empty
tokens; the result is always nonempty (the empty input gives `[[]]`).  This is
the splitting discipline shared by `boost::property_tree` path parsing and
`boost::split` with `token_compress_off`. -/
def splitCharsOnP (p : Char → Bool) : List Char → List (List Char)
  | [] => [[]]
  | c :: rest =>
    let r := splitCharsOnP p rest
    if p c then [] :: r
    else (c :: r.headD []) :: r.tail

/-- Split a string at every occurrence of the character `sep`, keeping empty
tokens (`""` yields `[""]`). -/
def splitString (sep : Char) (s : String) : List String :=
  (splitCharsOnP (fun c => c = sep) s.data).map (fun cs => String.mk cs)

/-- Walk a ptree path (already split into segments): each segment selects the
first child with that key, as `ptree::get_child` does. -/
def PTree.getPath : List String → PTree → Option PTree
  | [], t => some t
  | s :: rest, t =>
    (t.children.find? (fun c => c.1 = s)).bind (fun c => PTree.getPath rest c.2)

/-- Model of `node.get<T>(path)` (required form): missing path raises
`ptree_bad_path`, failed translation raises `ptree_bad_data`. -/
def PTree.getReq {α : Type} (t : PTree) (path : String) (conv : String → Option α) :
    Except ParseError α :=
  match PTree.getPath (splitString '.' path) t with
  | none => .error (.badPath path)
  | some c =>
    match conv c.data with
    | none => .error (.badData c.data)
    | some v => .ok v

/-- Model of `node.get<T>(path, default)`: the default is returned both when
the path is missing and when translation fails, as in boost. -/
def PTree.getDef {α : Type} (t : PTree) (path : String) (conv : String → Option α) (d : α) : α :=
  match PTree.getPath (splitString '.' path) t with
  | none => d
  | some c => (conv c.data).getD d

/-- Model of `node.get_optional<T>(path)`: `none` when the path is missing or
translation fails. -/
def PTree.getOpt {α : Type} (t : PTree) (path : String) (conv : String → Option α) : Option α :=
  (PTree.getPath (splitString '.' path) t).bind (fun c => conv c.data)

/-! ## String-to-value translators (boost stream translators) -/

/-- Whitespace skipped by stream extraction (`std::skipws`). -/
def skipWs : List Char → List Char
  | [] => []
  | c :: cs => if c.isWhitespace then skipWs cs else c :: cs

/-- Trim stream whitespace from both ends. -/
def trimWs (cs : List Char) : List Char :=
  skipWs ((skipWs cs.reverse).reverse)

/-- All characters are decimal digits. -/
def isDigits : List Char → Bool
  | [] => true
  | c :: cs => c.isDigit && isDigits cs

/-- Decimal value of a digit string, accumulator style. -/
def natOfDigits : List Char → Nat → Nat
  | [], acc => acc
  | c :: cs, acc => natOfDigits cs (acc * 10 + (c.toNat - 48))

/-- Translator for `bool` attributes: boost's stream translator accepts the
numeric forms `0`/`1` and the `boolalpha` forms `false`/`true`. -/
def str2bool (s : String) : Option Bool :=
  let t := String.mk (trimWs s.data)
  if t = "true" || t = "1" then some true
  else if t = "false" || t = "0" then some false
  else none

/-- Translator for `unsigned int` / `fmi2ValueReference` attributes (32-bit,
stream extraction fails on overflow or non-numeric input). -/
def str2u32 (s : String) : Option Nat :=
  let cs := trimWs s.data
  if cs.isEmpty then none
  else if isDigits cs then
    let v := natOfDigits cs 0
    if v < 4294967296 then some v else none
  else none

/-- Translator for `size_t` attributes (64-bit). -/
def str2u64 (s : String) : Option Nat :=
  let cs := trimWs s.data
  if cs.isEmpty then none
  else if isDigits cs then
    let v := natOfDigits cs 0
    if v < 18446744073709551616 then some v else none
  else none

/-- Translator for signed `int` attributes (32-bit, optional sign). -/
def str2int (s : String) : Option Int :=
  let cs := trimWs s.data
  match cs with
  | '-' :: rest =>
    if rest.isEmpty then none
    else if isDigits rest then
      let v := natOfDigits rest 0
      if v ≤ 2147483648 then some (-(v : Int)) else none
    else none
  | '+' :: rest =>
    if rest.isEmpty then none
    else if isDigits rest then
      let v := natOfDigits rest 0
      if v ≤ 2147483647 then some (v : Int) else none
    else none
  | _ =>
    if cs.isEmpty then none
    else if isDigits cs then
      let v := natOfDigits cs 0
      if v ≤ 2147483647 then some (v : Int) else none
    else none

/-- A `double` attribute value.  No claim depends on floating-point values, so
the token is kept raw (trimmed) rather than interpreted as an IEEE number. -/
structure F64 where
  raw : String
deriving DecidableEq, Repr

/-- Characters admissible in a decimal floating-point token. -/
def isF64Char (c : Char) : Bool :=
  c.isDigit || c = '.' || c = 'e' || c = 'E' || c = '+' || c = '-'

/-- Translator for `double` attributes: the numeric grammar is checked
shape-wise; the value itself is kept as the raw token (see `F64`). -/
def str2f64 (s : String) : Option F64 :=
  let cs := trimWs s.data
  if cs.isEmpty then none
  else if cs.all isF64Char then some ⟨String.mk cs⟩
  else none

/-! ## Data model

Record shapes follow the headers of the repository (declared outside the
parser translation unit); field layout matches the spec's §3 data-model table,
and field names match the source's member accesses. -/

/-- `DefaultExperiment`: four optional doubles. -/
structure DefaultExperiment where
  startTime : Option F64
  stopTime : Option F64
  stepSize : Option F64
  tolerance : Option F64
deriving DecidableEq, Repr

/-- `SourceFile`: a required `name`. -/
structure SourceFile where
  name : String
deriving DecidableEq, Repr

/-- `SourceFiles` is an ordered list of `SourceFile`. -/
abbrev SourceFiles := List SourceFile

/-- `Unknown`: required 1-based `index`, optional integer-list `dependencies`,
optional string-list `dependenciesKind`. -/
structure Unknown where
  index : Nat
  dependencies : Option (List Nat)
  dependenciesKind : Option (List String)
deriving DecidableEq, Repr

/-- `ModelStructure`: three ordered `Unknown` lists. -/
structure ModelStructure where
  outputs : List Unknown
  derivatives : List Unknown
  initialUnknowns : List Unknown
deriving DecidableEq, Repr

/-- `FmuAttributes`: required `modelIdentifier`, six capability booleans
(default `false`), and the collected source files. -/
structure FmuAttributes where
  modelIdentifier : String
  needsExecutionTool : Bool
  canGetAndSetFMUstate : Bool
  canSerializeFMUstate : Bool
  providesDirectionalDerivative : Bool
  canNotUseMemoryManagementFunctions : Bool
  canBeInstantiatedOnlyOncePerProcess : Bool
  sourceFiles : SourceFiles
deriving DecidableEq, Repr

/-- `CoSimulationAttributes` extends `FmuAttributes`. -/
structure CoSimulationAttributes extends FmuAttributes where
  maxOutputDerivativeOrder : Nat
  canInterpolateInputs : Bool
  canRunAsynchronuously : Bool
  canHandleVariableCommunicationStepSize : Bool
deriving DecidableEq, Repr

/-- `ModelExchangeAttributes` extends `FmuAttributes`. -/
structure ModelExchangeAttributes extends FmuAttributes where
  completedIntegratorStepNotNeeded : Bool
deriving DecidableEq, Repr

/-- Causality enumeration (FMI 2.0).  Modelled from the spec: `parseCausality`
and the enum live in a header not present under `src/`; per the spec the empty
string maps to the unspecified variant. -/
inductive Causality where
  | parameter | calculatedParameter | input | output | local_ | independent | unspecified
deriving DecidableEq, Repr

/-- Variability enumeration (FMI 2.0); see `Causality` for provenance. -/
inductive Variability where
  | constant | fixed | tunable | discrete | continuous | unspecified
deriving DecidableEq, Repr

/-- Initial enumeration (FMI 2.0); see `Causality` for provenance. -/
inductive Initial where
  | exact | approx | calculated | unspecified
deriving DecidableEq, Repr

/-- Modelled from the spec: `parseCausality` (declared in an enums header not
under `src/`) lexes the causality attribute string; empty or unknown input
maps to the unspecified variant. -/
def parseCausality : String → Causality
  | "parameter" => .parameter
  | "calculatedParameter" => .calculatedParameter
  | "input" => .input
  | "output" => .output
  | "local" => .local_
  | "independent" => .independent
  | _ => .unspecified

/-- Modelled from the spec: `parseVariability` (header not under `src/`). -/
def parseVariability : String → Variability
  | "constant" => .constant
  | "fixed" => .fixed
  | "tunable" => .tunable
  | "discrete" => .discrete
  | "continuous" => .continuous
  | _ => .unspecified

/-- Modelled from the spec: `parseInitial` (header not under `src/`). -/
def parseInitial : String → Initial
  | "exact" => .exact
  | "approx" => .approx
  | "calculated" => .calculated
  | _ => .unspecified

/-- `ScalarVariableAttribute<T>`: optional `start` and `declaredType`. -/
structure ScalarVariableAttribute (α : Type) where
  start : Option α
  declaredType : Option String
deriving DecidableEq, Repr

/-- `BoundedScalarVariableAttribute<T>` adds `min`, `max`, `quantity`. -/
structure BoundedScalarVariableAttribute (α : Type) extends ScalarVariableAttribute α where
  min : Option α
  max : Option α
  quantity : Option String
deriving DecidableEq, Repr

/-- `IntegerAttribute` is `BoundedScalarVariableAttribute<int>`. -/
abbrev IntegerAttribute := BoundedScalarVariableAttribute Int

/-- `RealAttribute` adds `nominal`, `unit`, `derivative` and three booleans. -/
structure RealAttribute extends BoundedScalarVariableAttribute F64 where
  nominal : Option F64
  unit : Option String
  derivative : Option Nat
  reinit : Bool
  unbounded : Bool
  relativeQuantity : Bool
deriving DecidableEq, Repr

/-- `StringAttribute` is `ScalarVariableAttribute<string>`. -/
abbrev StringAttribute := ScalarVariableAttribute String

/-- `BooleanAttribute` is `ScalarVariableAttribute<bool>`. -/
abbrev BooleanAttribute := ScalarVariableAttribute Bool

/-- `EnumerationAttribute` is `BoundedScalarVariableAttribute<int>`. -/
abbrev EnumerationAttribute := BoundedScalarVariableAttribute Int

/-- The typed-attribute variant of a `ScalarVariable` (exactly one arm). -/
inductive TypedAttribute where
  | integer (a : IntegerAttribute)
  | real (a : RealAttribute)
  | string (a : StringAttribute)
  | boolean (a : BooleanAttribute)
  | enumeration (a : EnumerationAttribute)
deriving DecidableEq, Repr

/-- `ScalarVariableBase`.  The field `canHandleMultipleSetPerTimelnstant`
keeps the source's member name (lowercase `l`, as written at the source's
assignment site). -/
structure ScalarVariableBase where
  name : String
  description : String
  valueReference : Nat
  canHandleMultipleSetPerTimelnstant : Bool
  causality : Causality
  variability : Variability
  initial : Initial
deriving DecidableEq, Repr

/-- `ScalarVariable`: base plus its typed-attribute variant. -/
structure ScalarVariable extends ScalarVariableBase where
  typedAttribute : TypedAttribute
deriving DecidableEq, Repr

/-- `ModelDescriptionBase`.  The collection fields default to empty when their
elements are absent from the document; the defaults themselves are modelled
from the spec (the header declaring them is not under `src/`). -/
structure ModelDescriptionBase where
  guid : String
  fmiVersion : String
  modelName : String
  description : String
  author : String
  version : String
  license : String
  copyright : String
  generationTool : String
  generationDateAndTime : String
  numberOfEventIndicators : Nat
  variableNamingConvention : String
  defaultExperiment : Option DefaultExperiment
  modelVariables : List ScalarVariable
  modelStructure : ModelStructure
deriving DecidableEq, Repr

/-- `ModelDescription`: base plus the two optional flavour records. -/
structure ModelDescription extends ModelDescriptionBase where
  coSimulation : Option CoSimulationAttributes
  modelExchange : Option ModelExchangeAttributes
deriving DecidableEq, Repr

/-! ## Leaf translators -/

/-- `DEFAULT_VARIABLE_NAMING_CONVENTION` (source line 40). -/
def DEFAULT_VARIABLE_NAMING_CONVENTION : String := "flat"

/-- `parseDefaultExperiment` (source lines 42-49): four optional doubles. -/
def parseDefaultExperiment (node : PTree) : DefaultExperiment :=
  { startTime := PTree.getOpt node "<xmlattr>.startTime" str2f64
    stopTime := PTree.getOpt node "<xmlattr>.stopTime" str2f64
    stepSize := PTree.getOpt node "<xmlattr>.stepSize" str2f64
    tolerance := PTree.getOpt node "<xmlattr>.tolerance" str2f64 }

/-- `parseFile` (source lines 51-55): required `name` attribute. -/
def parseFile (node : PTree) : Except ParseError SourceFile := do
  let name ← PTree.getReq node "<xmlattr>.name" (fun s => some s)
  return { name := name }

/-- `parseSourceFiles` (source lines 57-64): appends every child tagged
`File`, in document order, to the accumulator passed by reference. -/
def parseSourceFiles : List (String × PTree) → SourceFiles → Except ParseError SourceFiles
  | [], files => .ok files
  | v :: rest, files =>
    if v.1 = "File" then do
      let file ← parseFile v.2
      parseSourceFiles rest (files ++ [file])
    else parseSourceFiles rest files

/-! ## `dependencies` lexing (source lines 66-75)

`std::stringstream >> unsigned` skips leading whitespace and extracts a
maximal digit run; after each extraction one `,` or one space is skipped
(`peek`/`ignore`).  Extraction failure ends the loop silently.  The loop is
written with explicit fuel (one unit per character plus one) so that it stays
structurally recursive; each successful extraction consumes at least one
character, so this fuel can never be exhausted. -/

/-- Consume a maximal run of decimal digits, accumulating the value. -/
def readDigits : List Char → Nat → Nat × List Char
  | [], acc => (acc, [])
  | c :: cs, acc =>
    if c.isDigit then readDigits cs (acc * 10 + (c.toNat - 48))
    else (acc, c :: cs)

/-- One `ss >> i` step for `unsigned int`: skip whitespace, then require at
least one digit. -/
def extractUInt (cs : List Char) : Option (Nat × List Char) :=
  match skipWs cs with
  | [] => none
  | c :: rest => if c.isDigit then some (readDigits (c :: rest) 0) else none

/-- The `if (ss.peek() == ',' || ss.peek() == ' ') ss.ignore();` step. -/
def dropSep : List Char → List Char
  | [] => []
  | c :: cs => if c = ',' || c = ' ' then cs else c :: cs

/-- The `while (ss >> i)` loop of `parseUnknownDependencies`, fuelled. -/
def depLoop : Nat → List Char → List Nat
  | 0, _ => []
  | fuel + 1, cs =>
    match extractUInt cs with
    | none => []
    | some (n, rest) => n :: depLoop fuel (dropSep rest)

/-- `parseUnknownDependencies` (source lines 66-75). -/
def parseUnknownDependencies (str : String) : List Nat :=
  depLoop (str.data.length + 1) str.data

/-- `parseUnknownDependenciesKind` (source lines 77-79):
`boost::split(store, str, [](char c) { return c == ' '; })` with
`token_compress_off`, i.e. split at every space, keeping empty tokens. -/
def parseUnknownDependenciesKind (str : String) : List String :=
  splitString ' ' str

/-- Spec-side reference for splitting a list attribute: split on runs of
whitespace and drop empty tokens (the discipline §4.2 and §9.3 of the spec
prescribe for `dependenciesKind`). -/
def splitWsDropEmpty (s : String) : List String :=
  ((splitCharsOnP Char.isWhitespace s.data).filter (fun t => !t.isEmpty)).map
    (fun cs => String.mk cs)

/-- `parseUnknown` (source lines 81-101): required `index`; `dependencies` and
`dependenciesKind` stay absent when their attribute is absent. -/
def parseUnknown (node : PTree) : Except ParseError Unknown := do
  let index ← PTree.getReq node "<xmlattr>.index" str2u32
  let dependencies :=
    (PTree.getOpt node "<xmlattr>.dependencies" (fun s => some s)).map
      parseUnknownDependencies
  let dependenciesKind :=
    (PTree.getOpt node "<xmlattr>.dependenciesKind" (fun s => some s)).map
      parseUnknownDependenciesKind
  return { index := index, dependencies := dependencies, dependenciesKind := dependenciesKind }

/-- `loadUnknowns` (source lines 103-110): append every child tagged
`Unknown`, in document order. -/
def loadUnknowns : List (String × PTree) → List Unknown → Except ParseError (List Unknown)
  | [], acc => .ok acc
  | v :: rest, acc =>
    if v.1 = "Unknown" then do
      let unknown ← parseUnknown v.2
      loadUnknowns rest (acc ++ [unknown])
    else loadUnknowns rest acc

/-- `parseModelStructure` (source lines 112-130): one pass over the children,
loading `Outputs` / `Derivatives` / `InitialUnknowns` sections into three
accumulating lists (several sections with the same tag all append to the same
list). -/
def parseModelStructure :
    List (String × PTree) → List Unknown → List Unknown → List Unknown →
    Except ParseError ModelStructure
  | [], outputs, derivatives, initialUnknowns =>
    .ok { outputs := outputs, derivatives := derivatives, initialUnknowns := initialUnknowns }
  | v :: rest, outputs, derivatives, initialUnknowns =>
    if v.1 = "Outputs" then do
      let outputs' ← loadUnknowns v.2.children outputs
      parseModelStructure rest outputs' derivatives initialUnknowns
    else if v.1 = "Derivatives" then do
      let derivatives' ← loadUnknowns v.2.children derivatives
      parseModelStructure rest outputs derivatives' initialUnknowns
    else if v.1 = "InitialUnknowns" then do
      let initialUnknowns' ← loadUnknowns v.2.children initialUnknowns
      parseModelStructure rest outputs derivatives initialUnknowns'
    else parseModelStructure rest outputs derivatives initialUnknowns

/-- The `SourceFiles` scan inside `parseFmuAttributes` (source lines 146-150):
every child tagged `SourceFiles` appends its files to the same list. -/
def sourceFilesScan : List (String × PTree) → SourceFiles → Except ParseError SourceFiles
  | [], files => .ok files
  | v :: rest, files =>
    if v.1 = "SourceFiles" then do
      let files' ← parseSourceFiles v.2.children files
      sourceFilesScan rest files'
    else sourceFilesScan rest files

/-- `parseFmuAttributes` (source lines 132-154).  The six capability reads use
the source's exact path strings, which lack the leading `<` of `<xmlattr>`:
they address a child element named `xmlattr>` instead of the attribute map. -/
def parseFmuAttributes (node : PTree) : Except ParseError FmuAttributes := do
  let modelIdentifier ← PTree.getReq node "<xmlattr>.modelIdentifier" (fun s => some s)
  let needsExecutionTool := PTree.getDef node "xmlattr>.needsExecutionTool" str2bool false
  let canGetAndSetFMUstate := PTree.getDef node "xmlattr>.canGetAndSetFMUstate" str2bool false
  let canSerializeFMUstate := PTree.getDef node "xmlattr>.canSerializeFMUstate" str2bool false
  let providesDirectionalDerivative :=
    PTree.getDef node "xmlattr>.providesDirectionalDerivative" str2bool false
  let canNotUseMemoryManagementFunctions :=
    PTree.getDef node "xmlattr>.canNotUseMemoryManagementFunctions" str2bool false
  let canBeInstantiatedOnlyOncePerProcess :=
    PTree.getDef node "xmlattr>.canBeInstantiatedOnlyOncePerProcess" str2bool false
  let sourceFiles ← sourceFilesScan node.children []
  return { modelIdentifier := modelIdentifier
           needsExecutionTool := needsExecutionTool
           canGetAndSetFMUstate := canGetAndSetFMUstate
           canSerializeFMUstate := canSerializeFMUstate
           providesDirectionalDerivative := providesDirectionalDerivative
           canNotUseMemoryManagementFunctions := canNotUseMemoryManagementFunctions
           canBeInstantiatedOnlyOncePerProcess := canBeInstantiatedOnlyOncePerProcess
           sourceFiles := sourceFiles }

/-- `parseCoSimulationAttributes` (source lines 156-167). -/
def parseCoSimulationAttributes (node : PTree) : Except ParseError CoSimulationAttributes := do
  let fmu ← parseFmuAttributes node
  let maxOutputDerivativeOrder :=
    PTree.getDef node "<xmlattr>.maxOutputDerivativeOrder" str2u32 0
  let canInterpolateInputs := PTree.getDef node "<xmlattr>.canInterpolateInputs" str2bool false
  let canRunAsynchronuously :=
    PTree.getDef node "<xmlattr>.canRunAsynchronuously" str2bool false
  let canHandleVariableCommunicationStepSize :=
    PTree.getDef node "<xmlattr>.canHandleVariableCommunicationStepSize" str2bool false
  return { toFmuAttributes := fmu
           maxOutputDerivativeOrder := maxOutputDerivativeOrder
           canInterpolateInputs := canInterpolateInputs
           canRunAsynchronuously := canRunAsynchronuously
           canHandleVariableCommunicationStepSize := canHandleVariableCommunicationStepSize }

/-- `parseModelExchangeAttributes` (source lines 169-174). -/
def parseModelExchangeAttributes (node : PTree) : Except ParseError ModelExchangeAttributes := do
  let fmu ← parseFmuAttributes node
  let completedIntegratorStepNotNeeded :=
    PTree.getDef node "<xmlattr>.completedIntegratorStepNotNeeded" str2bool false
  return { toFmuAttributes := fmu
           completedIntegratorStepNotNeeded := completedIntegratorStepNotNeeded }

/-! ## Scalar variables -/

/-- `INTEGER_TYPE` (type-name constant from the scalar-variable header). -/
def INTEGER_TYPE : String := "Integer"

/-- `REAL_TYPE`. -/
def REAL_TYPE : String := "Real"

/-- `STRING_TYPE`. -/
def STRING_TYPE : String := "String"

/-- `BOOLEAN_TYPE`. -/
def BOOLEAN_TYPE : String := "Boolean"

/-- `ENUMERATION_TYPE`. -/
def ENUMERATION_TYPE : String := "Enumeration"

/-- `parseScalarVariableAttributes<T>` (source lines 176-182); the translator
for `T` is passed explicitly. -/
def parseScalarVariableAttributes {α : Type} (conv : String → Option α) (node : PTree) :
    ScalarVariableAttribute α :=
  { start := PTree.getOpt node "<xmlattr>.start" conv
    declaredType := PTree.getOpt node "<xmlattr>.declaredType" (fun s => some s) }

/-- `parseBoundedScalarVariableAttributes<T>` (source lines 184-191). -/
def parseBoundedScalarVariableAttributes {α : Type} (conv : String → Option α) (node : PTree) :
    BoundedScalarVariableAttribute α :=
  { toScalarVariableAttribute := parseScalarVariableAttributes conv node
    min := PTree.getOpt node "<xmlattr>.min" conv
    max := PTree.getOpt node "<xmlattr>.max" conv
    quantity := PTree.getOpt node "<xmlattr>.quantity" (fun s => some s) }

/-- `parseIntegerAttribute` (source lines 193-195). -/
def parseIntegerAttribute (node : PTree) : IntegerAttribute :=
  parseBoundedScalarVariableAttributes str2int node

/-- `parseRealAttribute` (source lines 197-206). -/
def parseRealAttribute (node : PTree) : RealAttribute :=
  { toBoundedScalarVariableAttribute := parseBoundedScalarVariableAttributes str2f64 node
    nominal := PTree.getOpt node "<xmlattr>.nominal" str2f64
    unit := PTree.getOpt node "<xmlattr>.unit" (fun s => some s)
    derivative := PTree.getOpt node "<xmlattr>.derivative" str2u32
    reinit := PTree.getDef node "<xmlattr>.reinit" str2bool false
    unbounded := PTree.getDef node "<xmlattr>.unbounded" str2bool false
    relativeQuantity := PTree.getDef node "<xmlattr>.relativeQuantity" str2bool false }

/-- `parseStringAttribute` (source lines 208-210). -/
def parseStringAttribute (node : PTree) : StringAttribute :=
  parseScalarVariableAttributes (fun s => some s) node

/-- `parseBooleanAttribute` (source lines 212-214). -/
def parseBooleanAttribute (node : PTree) : BooleanAttribute :=
  parseScalarVariableAttributes str2bool node

/-- `parseEnumerationAttribute` (source lines 216-218). -/
def parseEnumerationAttribute (node : PTree) : EnumerationAttribute :=
  parseBoundedScalarVariableAttributes str2int node

/-- The child scan of `parseScalarVariable` (source lines 234-248): the first
child whose tag is one of the five type names resolves the variable; reaching
the end of the children throws
`std::runtime_error("FATAL: Failed to parse ScalarVariable!")`. -/
def scanTypedAttribute (base : ScalarVariableBase) :
    List (String × PTree) → Except ParseError ScalarVariable
  | [] => .error (.fatal "FATAL: Failed to parse ScalarVariable!")
  | v :: rest =>
    if v.1 = INTEGER_TYPE then
      .ok { toScalarVariableBase := base, typedAttribute := .integer (parseIntegerAttribute v.2) }
    else if v.1 = REAL_TYPE then
      .ok { toScalarVariableBase := base, typedAttribute := .real (parseRealAttribute v.2) }
    else if v.1 = STRING_TYPE then
      .ok { toScalarVariableBase := base, typedAttribute := .string (parseStringAttribute v.2) }
    else if v.1 = BOOLEAN_TYPE then
      .ok { toScalarVariableBase := base, typedAttribute := .boolean (parseBooleanAttribute v.2) }
    else if v.1 = ENUMERATION_TYPE then
      .ok { toScalarVariableBase := base,
            typedAttribute := .enumeration (parseEnumerationAttribute v.2) }
    else scanTypedAttribute base rest

/-- `parseScalarVariable` (source lines 221-250).  Note the attribute read on
line 228 spells the attribute name `canHandleMultipleSetPerTimelnstant` with a
lowercase `l` where FMI 2.0 has a capital `I`. -/
def parseScalarVariable (node : PTree) : Except ParseError ScalarVariable := do
  let name ← PTree.getReq node "<xmlattr>.name" (fun s => some s)
  let description := PTree.getDef node "<xmlattr>.description" (fun s => some s) ""
  let valueReference ← PTree.getReq node "<xmlattr>.valueReference" str2u32
  let canHandle := PTree.getDef node "<xmlattr>.canHandleMultipleSetPerTimelnstant" str2bool false
  let causality := parseCausality (PTree.getDef node "<xmlattr>.causality" (fun s => some s) "")
  let variability :=
    parseVariability (PTree.getDef node "<xmlattr>.variability" (fun s => some s) "")
  let initial := parseInitial (PTree.getDef node "<xmlattr>.initial" (fun s => some s) "")
  let base : ScalarVariableBase :=
    { name := name
      description := description
      valueReference := valueReference
      canHandleMultipleSetPerTimelnstant := canHandle
      causality := causality
      variability := variability
      initial := initial }
  scanTypedAttribute base node.children

/-- `parseModelVariables` (source lines 252-261): append every child tagged
`ScalarVariable`, in document order; other children are ignored. -/
def parseModelVariables :
    List (String × PTree) → List ScalarVariable → Except ParseError (List ScalarVariable)
  | [], vars => .ok vars
  | v :: rest, vars =>
    if v.1 = "ScalarVariable" then do
      let var ← parseScalarVariable v.2
      parseModelVariables rest (vars ++ [var])
    else parseModelVariables rest vars

/-! ## Root translator (source lines 265-308) -/

/-- The base-attribute block of `parseModelDescription` (source lines
271-285).  The `defaultExperiment` / `modelVariables` / `modelStructure`
fields start at their defaults; the loop over the root children may overwrite
them.  The empty-collection defaults are modelled from the spec (the header
declaring `ModelDescriptionBase` is not under `src/`; per spec §6 the parser
tolerates an absent `ModelVariables`/`ModelStructure`, leaving them empty). -/
def parseBaseAttrs (root : PTree) : Except ParseError ModelDescriptionBase := do
  let guid ← PTree.getReq root "<xmlattr>.guid" (fun s => some s)
  let fmiVersion ← PTree.getReq root "<xmlattr>.fmiVersion" (fun s => some s)
  let modelName ← PTree.getReq root "<xmlattr>.modelName" (fun s => some s)
  let description := PTree.getDef root "<xmlattr>.description" (fun s => some s) ""
  let author := PTree.getDef root "<xmlattr>.author" (fun s => some s) ""
  let version := PTree.getDef root "<xmlattr>.version" (fun s => some s) ""
  let license := PTree.getDef root "<xmlattr>.license" (fun s => some s) ""
  let copyright := PTree.getDef root "<xmlattr>.copyright" (fun s => some s) ""
  let generationTool := PTree.getDef root "<xmlattr>.generationTool" (fun s => some s) ""
  let generationDateAndTime :=
    PTree.getDef root "<xmlattr>.generationDateAndTime" (fun s => some s) ""
  let numberOfEventIndicators :=
    PTree.getDef root "<xmlattr>.numberOfEventIndicators" str2u64 0
  let variableNamingConvention :=
    PTree.getDef root "<xmlattr>.variableNamingConvention" (fun s => some s)
      DEFAULT_VARIABLE_NAMING_CONVENTION
  return { guid := guid
           fmiVersion := fmiVersion
           modelName := modelName
           description := description
           author := author
           version := version
           license := license
           copyright := copyright
           generationTool := generationTool
           generationDateAndTime := generationDateAndTime
           numberOfEventIndicators := numberOfEventIndicators
           variableNamingConvention := variableNamingConvention
           defaultExperiment := none
           modelVariables := []
           modelStructure := { outputs := [], derivatives := [], initialUnknowns := [] } }

/-- The state mutated by the loop over the root children: the base record plus
the two optional flavour records (source lines 287-288). -/
structure RootAcc where
  base : ModelDescriptionBase
  coSimulation : Option CoSimulationAttributes
  modelExchange : Option ModelExchangeAttributes
deriving DecidableEq, Repr

/-- The body of the root loop (source lines 290-304): dispatch on the child's
tag; unrecognized children are ignored. -/
def rootStep (acc : RootAcc) (v : String × PTree) : Except ParseError RootAcc :=
  if v.1 = "CoSimulation" then
    (parseCoSimulationAttributes v.2).map (fun a => { acc with coSimulation := some a })
  else if v.1 = "ModelExchange" then
    (parseModelExchangeAttributes v.2).map (fun a => { acc with modelExchange := some a })
  else if v.1 = "DefaultExperiment" then
    .ok { acc with base := { acc.base with defaultExperiment := some (parseDefaultExperiment v.2) } }
  else if v.1 = "ModelVariables" then
    (parseModelVariables v.2.children []).map
      (fun l => { acc with base := { acc.base with modelVariables := l } })
  else if v.1 = "ModelStructure" then
    (parseModelStructure v.2.children [] [] []).map
      (fun m => { acc with base := { acc.base with modelStructure := m } })
  else .ok acc

/-- The loop over the root children (source lines 290-304). -/
def rootLoop : List (String × PTree) → RootAcc → Except ParseError RootAcc
  | [], acc => .ok acc
  | v :: rest, acc => do
    let acc' ← rootStep acc v
    rootLoop rest acc'

/-- Everything `parseModelDescription` does after `get_child`: read the base
attributes, run the child loop, assemble the `ModelDescription` (source lines
271-307). -/
def parseRoot (root : PTree) : Except ParseError ModelDescription := do
  let b ← parseBaseAttrs root
  let acc ← rootLoop root.children { base := b, coSimulation := none, modelExchange := none }
  return { toModelDescriptionBase := acc.base
           coSimulation := acc.coSimulation
           modelExchange := acc.modelExchange }

/-- `parseModelDescription` (source lines 265-308), starting from the parsed
XML tree (`read_xml` and file access are external collaborators):
`tree.get_child("fmiModelDescription")` then the root translation. -/
def parseModelDescription (tree : PTree) : Except ParseError ModelDescription :=
  match PTree.getPath ["fmiModelDescription"] tree with
  | none => .error (.badPath "fmiModelDescription")
  | some root => parseRoot root

/-! ## XML construction helpers (for concrete documents in the theorems) -/

/-- Build an attribute-map child (`<xmlattr>`) from name-value pairs. -/
def xmlAttrs (attrs : List (String × String)) : String × PTree :=
  ("<xmlattr>", .mk "" (attrs.map (fun a => (a.1, PTree.mk a.2 []))))

/-- Build an element node with the given attributes and children, as
`read_xml` would (attributes stored under the `<xmlattr>` child). -/
def xmlElem (attrs : List (String × String)) (children : List (String × PTree)) : PTree :=
  .mk "" (xmlAttrs attrs :: children)

/-! ## Concrete documents used by the claims -/

/-- A `<CoSimulation>` element whose six capability attributes are all
explicitly `true` in the XML. -/
def csAllCapsTrue : PTree :=
  xmlElem
    [("modelIdentifier", "m"),
     ("needsExecutionTool", "true"),
     ("canGetAndSetFMUstate", "true"),
     ("canSerializeFMUstate", "true"),
     ("providesDirectionalDerivative", "true"),
     ("canNotUseMemoryManagementFunctions", "true"),
     ("canBeInstantiatedOnlyOncePerProcess", "true")]
    []

/-- A `<ScalarVariable>` carrying the FMI 2.0 canonical attribute spelling
`canHandleMultipleSetPerTimeInstant` (capital `I`) with value `true`. -/
def svCanonicalSpelling : PTree :=
  xmlElem
    [("name", "v"), ("valueReference", "1"),
     ("canHandleMultipleSetPerTimeInstant", "true")]
    [("Integer", xmlElem [] [])]

/-- The same `<ScalarVariable>` but with the attribute spelled the way the
source reads it (`...Timelnstant`, lowercase `l`). -/
def svTypoSpelling : PTree :=
  xmlElem
    [("name", "v"), ("valueReference", "1"),
     ("canHandleMultipleSetPerTimelnstant", "true")]
    [("Integer", xmlElem [] [])]

/-- An `<Unknown index="3" dependencies="1,2 3,4"/>`. -/
def unknownDepsMixed : PTree := xmlElem [("index", "3"), ("dependencies", "1,2 3,4")] []

/-- An `<Unknown index="3" dependencies=""/>`. -/
def unknownDepsEmpty : PTree := xmlElem [("index", "3"), ("dependencies", "")] []

/-- An `<Unknown index="3"/>` with no `dependencies` attribute. -/
def unknownDepsAbsent : PTree := xmlElem [("index", "3")] []

/-- An `<Unknown index="3" dependenciesKind=""/>`. -/
def unknownDepsKindEmpty : PTree := xmlElem [("index", "3"), ("dependenciesKind", "")] []

/-- The minimal Co-Simulation document of spec Scenario A. -/
def scenarioATree : PTree :=
  .mk ""
    [("fmiModelDescription",
      xmlElem [("fmiVersion", "2.0"), ("modelName", "M"), ("guid", "{g}")]
        [("CoSimulation", xmlElem [("modelIdentifier", "m")] []),
         ("ModelVariables", PTree.mk "" []),
         ("ModelStructure", PTree.mk "" [])])]

/-- The `ModelDescription` the spec expects for Scenario A. -/
def scenarioAResult : ModelDescription :=
  { guid := "{g}"
    fmiVersion := "2.0"
    modelName := "M"
    description := ""
    author := ""
    version := ""
    license := ""
    copyright := ""
    generationTool := ""
    generationDateAndTime := ""
    numberOfEventIndicators := 0
    variableNamingConvention := "flat"
    defaultExperiment := none
    modelVariables := []
    modelStructure := { outputs := [], derivatives := [], initialUnknowns := [] }
    coSimulation := some
      { modelIdentifier := "m"
        needsExecutionTool := false
        canGetAndSetFMUstate := false
        canSerializeFMUstate := false
        providesDirectionalDerivative := false
        canNotUseMemoryManagementFunctions := false
        canBeInstantiatedOnlyOncePerProcess := false
        sourceFiles := []
        maxOutputDerivativeOrder := 0
        canInterpolateInputs := false
        canRunAsynchronuously := false
        canHandleVariableCommunicationStepSize := false }
    modelExchange := none }

/-! ## Claim theorems -/

/-- C1: a document sets all six FMU-capability booleans to `true` on a
`<CoSimulation>` element, yet the parsed `FmuAttributes` has every one of them
`false` — the source's attribute paths (missing the leading `<` of
`<xmlattr>`) never reach the attributes, so the XML value is not honoured and
the claim's mandated behaviour fails on this input. -/
theorem c1_capability_attrs_ignored :
    parseFmuAttributes csAllCapsTrue =
      .ok { modelIdentifier := "m"
            needsExecutionTool := false
            canGetAndSetFMUstate := false
            canSerializeFMUstate := false
            providesDirectionalDerivative := false
            canNotUseMemoryManagementFunctions := false
            canBeInstantiatedOnlyOncePerProcess := false
            sourceFiles := [] } := by
  rfl

/-- C2: a `<ScalarVariable>` carrying the FMI 2.0 canonical attribute
spelling `canHandleMultipleSetPerTimeInstant="true"` (capital `I`) parses with
the flag `false` — the source reads the attribute under the misspelled name
(lowercase `l`), so the canonical spelling is not accepted; the misspelled
attribute, by contrast, is honoured. -/
theorem c2_canonical_spelling_ignored :
    (parseScalarVariable svCanonicalSpelling).map
        (fun sv => sv.canHandleMultipleSetPerTimelnstant) = .ok false ∧
    (parseScalarVariable svTypoSpelling).map
        (fun sv => sv.canHandleMultipleSetPerTimelnstant) = .ok true := by
  exact ⟨rfl, rfl⟩

/-- C3: `dependencies="1,2 3,4"` parses to `[1,2,3,4]`; `dependencies=""`
yields a present-but-empty list; an absent `dependencies` attribute leaves the
field absent. -/
theorem c3_dependencies_parsing :
    (parseUnknown unknownDepsMixed).map (fun u => u.dependencies) = .ok (some [1, 2, 3, 4]) ∧
    (parseUnknown unknownDepsEmpty).map (fun u => u.dependencies) = .ok (some []) ∧
    (parseUnknown unknownDepsAbsent).map (fun u => u.dependencies) = .ok none := by
  exact ⟨rfl, rfl, rfl⟩

/-- C4: the parsed `dependenciesKind` list does not equal the
split-on-whitespace-runs-dropping-empties list the claim prescribes: the
source splits at every single space keeping empty tokens, so the empty string
yields `[""]` (not `[]`) and a double space keeps an empty token in the middle
of the list. -/
theorem c4_dependencies_kind_split :
    (parseUnknown unknownDepsKindEmpty).map (fun u => u.dependenciesKind) =
      .ok (some [""]) ∧
    splitWsDropEmpty "" = [] ∧
    parseUnknownDependenciesKind "fixed  tunable" = ["fixed", "", "tunable"] ∧
    splitWsDropEmpty "fixed  tunable" = ["fixed", "tunable"] ∧
    parseUnknownDependenciesKind "" ≠ splitWsDropEmpty "" := by
  refine ⟨rfl, rfl, rfl, rfl, ?_⟩
  decide

/-- C7: parsing the minimal Co-Simulation document of Scenario A yields
exactly the record the spec expects: `guid="{g}"`, `fmiVersion="2.0"`,
`modelName="M"`, `variableNamingConvention="flat"`, a present `coSimulation`
with all booleans `false` and `maxOutputDerivativeOrder = 0`, an absent
`modelExchange`, and empty variable and structure collections. -/
theorem c7_scenario_a :
    parseModelDescription scenarioATree = .ok scenarioAResult := by
  rfl

/-! ## Small `Except` computation lemmas -/

/-- Bind on a success. -/
@[simp] theorem except_bind_ok {ε α β : Type} (a : α) (f : α → Except ε β) :
    (Except.ok a >>= f) = f a := rfl

/-- Bind on a failure. -/
@[simp] theorem except_bind_error {ε α β : Type} (e : ε) (f : α → Except ε β) :
    ((Except.error e : Except ε α) >>= f) = Except.error e := rfl

/-- Map on a success. -/
@[simp] theorem except_map_ok {ε α β : Type} (f : α → β) (a : α) :
    (Except.ok a : Except ε α).map f = .ok (f a) := rfl

/-- Map on a failure. -/
@[simp] theorem except_map_error {ε α β : Type} (f : α → β) (e : ε) :
    (Except.error e : Except ε α).map f = .error e := rfl

/-- Map on a `pure` (the form `do`-notation produces). -/
@[simp] theorem except_map_pure {ε α β : Type} (f : α → β) (a : α) :
    (pure a : Except ε α).map f = .ok (f a) := rfl

/-- A `pure` in the `Except` monad is an `ok`. -/
@[simp] theorem except_pure_eq_ok {ε α : Type} (a : α) :
    (pure a : Except ε α) = .ok a := rfl

/-! ## C6: `ModelVariables` contains exactly the `ScalarVariable` children -/

/-- Spec-side reference: parse a list of children one after the other with
`parseScalarVariable`, keeping document order. -/
def mapParseScalarVariables : List (String × PTree) → Except ParseError (List ScalarVariable)
  | [] => .ok []
  | v :: rest => do
    let x ← parseScalarVariable v.2
    let xs ← mapParseScalarVariables rest
    return x :: xs

/-- Spec-side reference for `parseModelVariables`, following the spec's words:
exactly the children tagged `ScalarVariable`, in document order, are parsed;
children with any other tag contribute nothing. -/
def specModelVariables (cs : List (String × PTree)) : Except ParseError (List ScalarVariable) :=
  mapParseScalarVariables (cs.filter (fun v => v.1 = "ScalarVariable"))

/-- The accumulating loop of `parseModelVariables` computes the spec-side
list, prefixed by the accumulator. -/
theorem parseModelVariables_eq (cs : List (String × PTree)) :
    ∀ acc, parseModelVariables cs acc =
      (specModelVariables cs).map (fun l => acc ++ l) := by
  induction cs with
  | nil => intro acc; simp [parseModelVariables, specModelVariables, mapParseScalarVariables]
  | cons v rest ih =>
    intro acc
    by_cases h : v.1 = "ScalarVariable"
    · simp only [parseModelVariables, specModelVariables, List.filter_cons, h, if_pos,
        decide_True, mapParseScalarVariables]
      cases hx : parseScalarVariable v.2 with
      | error e => simp [hx]
      | ok x =>
        simp only [hx, except_bind_ok]
        rw [ih (acc ++ [x])]
        show _ = (mapParseScalarVariables (List.filter _ rest) >>= fun xs =>
          Except.ok (x :: xs)).map fun l => acc ++ l
        cases hr : mapParseScalarVariables (rest.filter (fun v => v.1 = "ScalarVariable")) with
        | error e => simp [specModelVariables, hr]
        | ok xs => simp [specModelVariables, hr]
    · simp only [parseModelVariables, specModelVariables, List.filter_cons, h, decide_False,
        if_neg, Bool.false_eq_true, not_false_eq_true]
      rw [ih acc]
      rfl

/-- C6: for every element, the `ModelVariables` translation yields exactly the
parses of the children tagged `ScalarVariable`, in document order; children
with any other tag are ignored and contribute nothing (they neither appear in
the list nor affect it). -/
theorem c6_model_variables_exact (cs : List (String × PTree)) :
    parseModelVariables cs [] = specModelVariables cs := by
  rw [parseModelVariables_eq cs []]
  cases h : specModelVariables cs <;> simp [h]

/-! ## C10: several same-tagged sections append into one list -/

/-- Spec-side reference: parse a list of children one after the other with
`parseUnknown`, keeping document order. -/
def mapParseUnknowns : List (String × PTree) → Except ParseError (List Unknown)
  | [] => .ok []
  | v :: rest => do
    let x ← parseUnknown v.2
    let xs ← mapParseUnknowns rest
    return x :: xs

/-- Spec-side reference for one section body: the `Unknown`-tagged children,
parsed in document order. -/
def specUnknowns (cs : List (String × PTree)) : Except ParseError (List Unknown) :=
  mapParseUnknowns (cs.filter (fun v => v.1 = "Unknown"))

/-- Spec-side reference: the entries of all sections with the given tag,
concatenated in document order. -/
def specSectionUnknowns (tag : String) : List (String × PTree) → Except ParseError (List Unknown)
  | [] => .ok []
  | v :: rest =>
    if v.1 = tag then do
      let us ← specUnknowns v.2.children
      let more ← specSectionUnknowns tag rest
      return us ++ more
    else specSectionUnknowns tag rest

/-- Spec-side reference: parse a list of children one after the other with
`parseFile`, keeping document order. -/
def mapParseFiles : List (String × PTree) → Except ParseError SourceFiles
  | [] => .ok []
  | v :: rest => do
    let x ← parseFile v.2
    let xs ← mapParseFiles rest
    return x :: xs

/-- Spec-side reference for one `<SourceFiles>` section body: the
`File`-tagged children, parsed in document order. -/
def specFiles (cs : List (String × PTree)) : Except ParseError SourceFiles :=
  mapParseFiles (cs.filter (fun v => v.1 = "File"))

/-- Spec-side reference: the files of all `<SourceFiles>` sections,
concatenated in document order. -/
def specSourceFilesConcat : List (String × PTree) → Except ParseError SourceFiles
  | [] => .ok []
  | v :: rest =>
    if v.1 = "SourceFiles" then do
      let fs ← specFiles v.2.children
      let more ← specSourceFilesConcat rest
      return fs ++ more
    else specSourceFilesConcat rest

/-- The accumulating loop of `loadUnknowns` computes the spec-side list,
prefixed by the accumulator. -/
theorem loadUnknowns_eq (cs : List (String × PTree)) :
    ∀ acc, loadUnknowns cs acc = (specUnknowns cs).map (fun l => acc ++ l) := by
  induction cs with
  | nil => intro acc; simp [loadUnknowns, specUnknowns, mapParseUnknowns]
  | cons v rest ih =>
    intro acc
    by_cases h : v.1 = "Unknown"
    · simp only [loadUnknowns, specUnknowns, List.filter_cons, h, if_pos, decide_True,
        mapParseUnknowns]
      cases hx : parseUnknown v.2 with
      | error e => simp [hx]
      | ok x =>
        simp only [hx, except_bind_ok]
        rw [ih (acc ++ [x])]
        cases hr : mapParseUnknowns (rest.filter (fun v => v.1 = "Unknown")) with
        | error e => simp [specUnknowns, hr]
        | ok xs => simp [specUnknowns, hr]
    · simp only [loadUnknowns, specUnknowns, List.filter_cons, h, decide_False, if_neg,
        Bool.false_eq_true, not_false_eq_true]
      rw [ih acc]
      rfl

/-- The accumulating loop of `parseSourceFiles` computes the spec-side list,
prefixed by the accumulator. -/
theorem parseSourceFiles_eq (cs : List (String × PTree)) :
    ∀ acc, parseSourceFiles cs acc = (specFiles cs).map (fun l => acc ++ l) := by
  induction cs with
  | nil => intro acc; simp [parseSourceFiles, specFiles, mapParseFiles]
  | cons v rest ih =>
    intro acc
    by_cases h : v.1 = "File"
    · simp only [parseSourceFiles, specFiles, List.filter_cons, h, if_pos, decide_True,
        mapParseFiles]
      cases hx : parseFile v.2 with
      | error e => simp [hx]
      | ok x =>
        simp only [hx, except_bind_ok]
        rw [ih (acc ++ [x])]
        cases hr : mapParseFiles (rest.filter (fun v => v.1 = "File")) with
        | error e => simp [specFiles, hr]
        | ok xs => simp [specFiles, hr]
    · simp only [parseSourceFiles, specFiles, List.filter_cons, h, decide_False, if_neg,
        Bool.false_eq_true, not_false_eq_true]
      rw [ih acc]
      rfl

/-- A successful `sourceFilesScan` produces the concatenation of all
`<SourceFiles>` sections appended to the incoming accumulator. -/
theorem sourceFilesScan_spec (cs : List (String × PTree)) :
    ∀ files fs, sourceFilesScan cs files = .ok fs →
      (specSourceFilesConcat cs).map (fun l => files ++ l) = .ok fs := by
  induction cs with
  | nil =>
    intro files fs h
    simp only [sourceFilesScan] at h
    cases h
    simp [specSourceFilesConcat]
  | cons v rest ih =>
    intro files fs h
    by_cases hv : v.1 = "SourceFiles"
    · simp only [sourceFilesScan, hv, if_pos] at h
      cases hp : parseSourceFiles v.2.children files with
      | error e => rw [hp] at h; simp at h
      | ok files' =>
        rw [hp] at h
        simp only [except_bind_ok] at h
        rw [parseSourceFiles_eq] at hp
        cases hf : specFiles v.2.children with
        | error e => rw [hf] at hp; simp at hp
        | ok l =>
          rw [hf] at hp
          simp only [except_map_ok, Except.ok.injEq] at hp
          have := ih files' fs h
          cases hm : specSourceFilesConcat rest with
          | error e => rw [hm] at this; simp at this
          | ok more =>
            rw [hm] at this
            simp only [except_map_ok, Except.ok.injEq] at this
            simp only [specSourceFilesConcat, hv, if_pos, hf, hm, except_bind_ok,
              except_map_ok, Except.ok.injEq]
            rw [← this, ← hp]
            simp [List.append_assoc]
    · simp only [sourceFilesScan, hv, if_neg, not_false_eq_true] at h
      simp only [specSourceFilesConcat, hv, if_neg, not_false_eq_true]
      exact ih files fs h

/-- A successful `parseModelStructure` run yields, for each of the three
section tags, the concatenation of all same-tagged sections appended to the
corresponding incoming accumulator. -/
theorem parseModelStructure_sections (cs : List (String × PTree)) :
    ∀ outs ders inits ms, parseModelStructure cs outs ders inits = .ok ms →
      (specSectionUnknowns "Outputs" cs).map (fun l => outs ++ l) = .ok ms.outputs ∧
      (specSectionUnknowns "Derivatives" cs).map (fun l => ders ++ l) = .ok ms.derivatives ∧
      (specSectionUnknowns "InitialUnknowns" cs).map (fun l => inits ++ l) =
        .ok ms.initialUnknowns := by
  induction cs with
  | nil =>
    intro outs ders inits ms h
    simp only [parseModelStructure] at h
    cases h
    simp [specSectionUnknowns]
  | cons v rest ih =>
    intro outs ders inits ms h
    by_cases h1 : v.1 = "Outputs"
    · simp only [parseModelStructure, h1, if_pos] at h
      cases hl : loadUnknowns v.2.children outs with
      | error e => rw [hl] at h; simp at h
      | ok outs' =>
        rw [hl] at h
        simp only [except_bind_ok] at h
        rw [loadUnknowns_eq] at hl
        cases hu : specUnknowns v.2.children with
        | error e => rw [hu] at hl; simp at hl
        | ok us =>
          rw [hu] at hl
          simp only [except_map_ok, Except.ok.injEq] at hl
          obtain ⟨iho, ihd, ihi⟩ := ih outs' ders inits ms h
          refine ⟨?_, ?_, ?_⟩
          · cases hm : specSectionUnknowns "Outputs" rest with
            | error e => rw [hm] at iho; simp at iho
            | ok more =>
              rw [hm] at iho
              simp only [except_map_ok, Except.ok.injEq] at iho
              simp only [specSectionUnknowns, h1, if_pos, hu, hm, except_bind_ok,
                except_map_ok, Except.ok.injEq]
              rw [← iho, ← hl]
              simp [List.append_assoc]
          · simpa [specSectionUnknowns, h1] using ihd
          · simpa [specSectionUnknowns, h1] using ihi
    · by_cases h2 : v.1 = "Derivatives"
      · simp only [parseModelStructure, h1, h2, if_pos, if_neg, not_false_eq_true] at h
        cases hl : loadUnknowns v.2.children ders with
        | error e => rw [hl] at h; simp at h
        | ok ders' =>
          rw [hl] at h
          simp only [except_bind_ok] at h
          rw [loadUnknowns_eq] at hl
          cases hu : specUnknowns v.2.children with
          | error e => rw [hu] at hl; simp at hl
          | ok us =>
            rw [hu] at hl
            simp only [except_map_ok, Except.ok.injEq] at hl
            obtain ⟨iho, ihd, ihi⟩ := ih outs ders' inits ms h
            refine ⟨?_, ?_, ?_⟩
            · simpa [specSectionUnknowns, h1, h2] using iho
            · cases hm : specSectionUnknowns "Derivatives" rest with
              | error e => rw [hm] at ihd; simp at ihd
              | ok more =>
                rw [hm] at ihd
                simp only [except_map_ok, Except.ok.injEq] at ihd
                simp only [specSectionUnknowns, h1, h2, if_pos, if_neg, not_false_eq_true,
                  hu, hm, except_bind_ok, except_map_ok, Except.ok.injEq]
                rw [← ihd, ← hl]
                simp [List.append_assoc]
            · simpa [specSectionUnknowns, h1, h2] using ihi
      · by_cases h3 : v.1 = "InitialUnknowns"
        · simp only [parseModelStructure, h1, h2, h3, if_pos, if_neg, not_false_eq_true] at h
          cases hl : loadUnknowns v.2.children inits with
          | error e => rw [hl] at h; simp at h
          | ok inits' =>
            rw [hl] at h
            simp only [except_bind_ok] at h
            rw [loadUnknowns_eq] at hl
            cases hu : specUnknowns v.2.children with
            | error e => rw [hu] at hl; simp at hl
            | ok us =>
              rw [hu] at hl
              simp only [except_map_ok, Except.ok.injEq] at hl
              obtain ⟨iho, ihd, ihi⟩ := ih outs ders inits' ms h
              refine ⟨?_, ?_, ?_⟩
              · simpa [specSectionUnknowns, h1, h2, h3] using iho
              · simpa [specSectionUnknowns, h1, h2, h3] using ihd
              · cases hm : specSectionUnknowns "InitialUnknowns" rest with
                | error e => rw [hm] at ihi; simp at ihi
                | ok more =>
                  rw [hm] at ihi
                  simp only [except_map_ok, Except.ok.injEq] at ihi
                  simp only [specSectionUnknowns, h1, h2, h3, if_pos, if_neg,
                    not_false_eq_true, hu, hm, except_bind_ok, except_map_ok,
                    Except.ok.injEq]
                  rw [← ihi, ← hl]
                  simp [List.append_assoc]
        · simp only [parseModelStructure, h1, h2, h3, if_neg, not_false_eq_true] at h
          obtain ⟨iho, ihd, ihi⟩ := ih outs ders inits ms h
          exact ⟨by simpa [specSectionUnknowns, h1] using iho,
                 by simpa [specSectionUnknowns, h2] using ihd,
                 by simpa [specSectionUnknowns, h3] using ihi⟩

/-- C10: when an element contains several sections with the same recognized
collection tag, the parser neither rejects nor overwrites: a successful
`parseModelStructure` yields, for each of `Outputs` / `Derivatives` /
`InitialUnknowns`, the entries of all same-tagged sections concatenated in
document order, and a successful `parseFmuAttributes` collects the files of
all `<SourceFiles>` sections concatenated in document order. -/
theorem c10_same_tag_sections_append (cs : List (String × PTree)) (ms : ModelStructure)
    (node : PTree) (a : FmuAttributes) :
    (parseModelStructure cs [] [] [] = .ok ms →
       specSectionUnknowns "Outputs" cs = .ok ms.outputs ∧
       specSectionUnknowns "Derivatives" cs = .ok ms.derivatives ∧
       specSectionUnknowns "InitialUnknowns" cs = .ok ms.initialUnknowns) ∧
    (parseFmuAttributes node = .ok a →
       specSourceFilesConcat node.children = .ok a.sourceFiles) := by
  constructor
  · intro h
    obtain ⟨ho, hd, hi⟩ := parseModelStructure_sections cs [] [] [] ms h
    refine ⟨?_, ?_, ?_⟩
    · cases hm : specSectionUnknowns "Outputs" cs with
      | error e => rw [hm] at ho; simp at ho
      | ok l => rw [hm] at ho; simpa using ho
    · cases hm : specSectionUnknowns "Derivatives" cs with
      | error e => rw [hm] at hd; simp at hd
      | ok l => rw [hm] at hd; simpa using hd
    · cases hm : specSectionUnknowns "InitialUnknowns" cs with
      | error e => rw [hm] at hi; simp at hi
      | ok l => rw [hm] at hi; simpa using hi
  · intro h
    unfold parseFmuAttributes at h
    cases hm : PTree.getReq node "<xmlattr>.modelIdentifier" (fun s => some s) with
    | error e => rw [hm] at h; simp at h
    | ok mid =>
      rw [hm] at h
      simp only [except_bind_ok] at h
      cases hs : sourceFilesScan node.children [] with
      | error e => rw [hs] at h; simp at h
      | ok fs =>
        rw [hs] at h
        simp only [except_bind_ok] at h
        have hspec := sourceFilesScan_spec node.children [] fs hs
        cases hc : specSourceFilesConcat node.children with
        | error e => rw [hc] at hspec; simp at hspec
        | ok l =>
          rw [hc] at hspec
          simp only [except_map_ok, Except.ok.injEq, List.nil_append] at hspec
          cases h
          simpa using hspec

/-- A `<ModelStructure>` with two `<Outputs>` sections and interleaved other
sections, exercising the append-not-overwrite behaviour. -/
def msTwoOutputs : List (String × PTree) :=
  [("Outputs", PTree.mk "" [("Unknown", xmlElem [("index", "1")] [])]),
   ("Derivatives", PTree.mk "" [("Unknown", xmlElem [("index", "2")] [])]),
   ("Outputs", PTree.mk "" [("Unknown", xmlElem [("index", "3")] [])])]

/-- A `<CoSimulation>` with two `<SourceFiles>` sections. -/
def csTwoSourceFiles : PTree :=
  xmlElem [("modelIdentifier", "m")]
    [("SourceFiles", PTree.mk "" [("File", xmlElem [("name", "a.c")] [])]),
     ("SourceFiles", PTree.mk "" [("File", xmlElem [("name", "b.c")] [])])]

/-- The `ModelStructure` the parser produces for `msTwoOutputs`. -/
def msTwoOutputsResult : ModelStructure :=
  { outputs := [{ index := 1, dependencies := none, dependenciesKind := none },
                { index := 3, dependencies := none, dependenciesKind := none }]
    derivatives := [{ index := 2, dependencies := none, dependenciesKind := none }]
    initialUnknowns := [] }

/-- An all-default `FmuAttributes` record (placeholder argument). -/
def emptyFmuAttributes : FmuAttributes :=
  { modelIdentifier := ""
    needsExecutionTool := false
    canGetAndSetFMUstate := false
    canSerializeFMUstate := false
    providesDirectionalDerivative := false
    canNotUseMemoryManagementFunctions := false
    canBeInstantiatedOnlyOncePerProcess := false
    sourceFiles := [] }

/-- The `FmuAttributes` the parser produces for `csTwoSourceFiles`. -/
def csTwoSourceFilesResult : FmuAttributes :=
  { emptyFmuAttributes with
    modelIdentifier := "m"
    sourceFiles := [{ name := "a.c" }, { name := "b.c" }] }

/-- Witness for C10 at concrete input: two `<Outputs>` sections contribute
`[1]` and `[3]`, concatenated to `[1, 3]`, and two `<SourceFiles>` sections
concatenate to `[a.c, b.c]`. -/
theorem c10_same_tag_sections_append_witness :
    (specSectionUnknowns "Outputs" msTwoOutputs = .ok msTwoOutputsResult.outputs ∧
     specSectionUnknowns "Derivatives" msTwoOutputs = .ok msTwoOutputsResult.derivatives ∧
     specSectionUnknowns "InitialUnknowns" msTwoOutputs =
       .ok msTwoOutputsResult.initialUnknowns) ∧
    specSourceFilesConcat csTwoSourceFiles.children =
      .ok csTwoSourceFilesResult.sourceFiles := by
  constructor
  · exact (c10_same_tag_sections_append msTwoOutputs msTwoOutputsResult
      (PTree.mk "" []) emptyFmuAttributes).1 (by rfl)
  · exact (c10_same_tag_sections_append []
      { outputs := [], derivatives := [], initialUnknowns := [] }
      csTwoSourceFiles csTwoSourceFilesResult).2 (by rfl)

/-! ## C5: a `ScalarVariable` without a typed child -/

/-- If no child carries one of the five type tags, the scan reaches the end of
the children and raises the source's fixed fatal error. -/
theorem scanTypedAttribute_none (base : ScalarVariableBase) :
    ∀ cs : List (String × PTree),
      (∀ v ∈ cs, v.1 ≠ INTEGER_TYPE ∧ v.1 ≠ REAL_TYPE ∧ v.1 ≠ STRING_TYPE ∧
        v.1 ≠ BOOLEAN_TYPE ∧ v.1 ≠ ENUMERATION_TYPE) →
      scanTypedAttribute base cs = .error (.fatal "FATAL: Failed to parse ScalarVariable!") := by
  intro cs
  induction cs with
  | nil => intro _; rfl
  | cons v rest ih =>
    intro h
    obtain ⟨h1, h2, h3, h4, h5⟩ := h v (List.mem_cons_self v rest)
    simp only [scanTypedAttribute, h1, h2, h3, h4, h5, if_neg, not_false_eq_true]
    exact ih (fun w hw => h w (List.mem_cons_of_mem v hw))

/-- C5 (amended): a `<ScalarVariable>` whose required `name` and
`valueReference` attributes are readable but none of whose children is tagged
`Integer`, `Real`, `String`, `Boolean` or `Enumeration` makes parsing fail —
no `ScalarVariable` is produced — but with the source's fixed generic error
`FATAL: Failed to parse ScalarVariable!`, which does not carry the variable's
name. -/
theorem c5_no_typed_child_fatal (node : PTree) (nm : String) (vr : Nat)
    (hname : PTree.getReq node "<xmlattr>.name" (fun s => some s) = .ok nm)
    (hvr : PTree.getReq node "<xmlattr>.valueReference" str2u32 = .ok vr)
    (htags : ∀ v ∈ node.children, v.1 ≠ INTEGER_TYPE ∧ v.1 ≠ REAL_TYPE ∧ v.1 ≠ STRING_TYPE ∧
      v.1 ≠ BOOLEAN_TYPE ∧ v.1 ≠ ENUMERATION_TYPE) :
    parseScalarVariable node = .error (.fatal "FATAL: Failed to parse ScalarVariable!") := by
  unfold parseScalarVariable
  rw [hname]
  simp only [except_bind_ok]
  rw [hvr]
  simp only [except_bind_ok]
  exact scanTypedAttribute_none _ node.children htags

/-- A `<ScalarVariable name="a" valueReference="1">` with only an
unrecognized child. -/
def svNoTypedA : PTree :=
  xmlElem [("name", "a"), ("valueReference", "1")] [("Foo", PTree.mk "" [])]

/-- The same element but named `b`. -/
def svNoTypedB : PTree :=
  xmlElem [("name", "b"), ("valueReference", "1")] [("Foo", PTree.mk "" [])]

/-- C5 counterexample to the claim as stated: two variables with different
names but no typed child fail with the *same* fixed error value, so the error
produced cannot carry the name of the offending variable (the claim's
`InvalidScalarVariable` naming the variable does not match the source, which
throws `std::runtime_error("FATAL: Failed to parse ScalarVariable!")`). -/
theorem c5_error_lacks_name :
    PTree.getReq svNoTypedA "<xmlattr>.name" (fun s => some s) = .ok "a" ∧
    PTree.getReq svNoTypedB "<xmlattr>.name" (fun s => some s) = .ok "b" ∧
    parseScalarVariable svNoTypedA = .error (.fatal "FATAL: Failed to parse ScalarVariable!") ∧
    parseScalarVariable svNoTypedB = parseScalarVariable svNoTypedA := by
  exact ⟨rfl, rfl, rfl, rfl⟩

/-- Witness for the amended C5 at the concrete element `svNoTypedA`. -/
theorem c5_no_typed_child_fatal_witness :
    parseScalarVariable svNoTypedA =
      .error (.fatal "FATAL: Failed to parse ScalarVariable!") :=
  c5_no_typed_child_fatal svNoTypedA "a" 1 (by rfl) (by rfl) (by decide)

/-! ## C9: root-child order is not observable

Each recognized root child updates a distinct slot of the loop state; the
analysis below factors the loop body into a per-child parse result and a
state update, proves the two commute for children with distinct tags, and
transports a successful run along any permutation of children with pairwise
distinct tags. -/

/-- The effect a single root child has on the loop state. -/
inductive RootUpd where
  | skip
  | cs (a : CoSimulationAttributes)
  | me (a : ModelExchangeAttributes)
  | de (e : DefaultExperiment)
  | mv (l : List ScalarVariable)
  | ms (m : ModelStructure)

/-- The parse work `rootStep` performs for one child, independent of the
current state. -/
def childResult (v : String × PTree) : Except ParseError RootUpd :=
  if v.1 = "CoSimulation" then (parseCoSimulationAttributes v.2).map .cs
  else if v.1 = "ModelExchange" then (parseModelExchangeAttributes v.2).map .me
  else if v.1 = "DefaultExperiment" then .ok (.de (parseDefaultExperiment v.2))
  else if v.1 = "ModelVariables" then (parseModelVariables v.2.children []).map .mv
  else if v.1 = "ModelStructure" then (parseModelStructure v.2.children [] [] []).map .ms
  else .ok .skip

/-- Apply one child's effect to the loop state. -/
def applyUpd : RootUpd → RootAcc → RootAcc
  | .skip, acc => acc
  | .cs a, acc => { acc with coSimulation := some a }
  | .me a, acc => { acc with modelExchange := some a }
  | .de e, acc => { acc with base := { acc.base with defaultExperiment := some e } }
  | .mv l, acc => { acc with base := { acc.base with modelVariables := l } }
  | .ms m, acc => { acc with base := { acc.base with modelStructure := m } }

/-- The tag a nontrivial update responds to. -/
def tagFor : RootUpd → Option String
  | .skip => none
  | .cs _ => some "CoSimulation"
  | .me _ => some "ModelExchange"
  | .de _ => some "DefaultExperiment"
  | .mv _ => some "ModelVariables"
  | .ms _ => some "ModelStructure"

/-- `rootStep` factors through `childResult` and `applyUpd`. -/
theorem rootStep_eq (acc : RootAcc) (v : String × PTree) :
    rootStep acc v = (childResult v).map (fun u => applyUpd u acc) := by
  unfold rootStep childResult
  by_cases h1 : v.1 = "CoSimulation"
  · simp only [if_pos h1]
    cases parseCoSimulationAttributes v.2 <;> rfl
  · simp only [if_neg h1]
    by_cases h2 : v.1 = "ModelExchange"
    · simp only [if_pos h2]
      cases parseModelExchangeAttributes v.2 <;> rfl
    · simp only [if_neg h2]
      by_cases h3 : v.1 = "DefaultExperiment"
      · simp only [if_pos h3]; rfl
      · simp only [if_neg h3]
        by_cases h4 : v.1 = "ModelVariables"
        · simp only [if_pos h4]
          cases parseModelVariables v.2.children [] <;> rfl
        · simp only [if_neg h4]
          by_cases h5 : v.1 = "ModelStructure"
          · simp only [if_pos h5]
            cases parseModelStructure v.2.children [] [] [] <;> rfl
          · simp only [if_neg h5]; rfl

/-- A successful `childResult` is either a skip or an update keyed by the
child's own tag. -/
theorem childResult_tag (v : String × PTree) (u : RootUpd) (h : childResult v = .ok u) :
    tagFor u = none ∨ tagFor u = some v.1 := by
  unfold childResult at h
  by_cases h1 : v.1 = "CoSimulation"
  · rw [if_pos h1] at h
    cases hp : parseCoSimulationAttributes v.2 <;> rw [hp] at h <;> simp at h
    right; rw [← h, h1]; rfl
  · rw [if_neg h1] at h
    by_cases h2 : v.1 = "ModelExchange"
    · rw [if_pos h2] at h
      cases hp : parseModelExchangeAttributes v.2 <;> rw [hp] at h <;> simp at h
      right; rw [← h, h2]; rfl
    · rw [if_neg h2] at h
      by_cases h3 : v.1 = "DefaultExperiment"
      · rw [if_pos h3] at h
        cases h
        right; rw [h3]; rfl
      · rw [if_neg h3] at h
        by_cases h4 : v.1 = "ModelVariables"
        · rw [if_pos h4] at h
          cases hp : parseModelVariables v.2.children [] <;> rw [hp] at h <;> simp at h
          right; rw [← h, h4]; rfl
        · rw [if_neg h4] at h
          by_cases h5 : v.1 = "ModelStructure"
          · rw [if_pos h5] at h
            cases hp : parseModelStructure v.2.children [] [] [] <;> rw [hp] at h <;>
              simp at h
            right; rw [← h, h5]; rfl
          · rw [if_neg h5] at h
            cases h
            left; rfl

/-- Updates responding to different tags (or skips) commute on the state. -/
theorem applyUpd_comm (u1 u2 : RootUpd)
    (h : tagFor u1 = none ∨ tagFor u2 = none ∨ tagFor u1 ≠ tagFor u2) (acc : RootAcc) :
    applyUpd u1 (applyUpd u2 acc) = applyUpd u2 (applyUpd u1 acc) := by
  cases u1 <;> cases u2 <;> first
    | rfl
    | (simp only [tagFor] at h
       rcases h with h | h | h <;> simp at h)

/-- Two consecutive `rootStep`s on children with distinct tags can be run in
either order when the run succeeds. -/
theorem rootStep_comm (s : RootAcc) (x y : String × PTree) (hxy : x.1 ≠ y.1) (r : RootAcc)
    (h : (rootStep s x >>= fun s1 => rootStep s1 y) = .ok r) :
    (rootStep s y >>= fun s1 => rootStep s1 x) = .ok r := by
  simp only [rootStep_eq] at h ⊢
  cases hx : childResult x with
  | error e => rw [hx] at h; simp at h
  | ok ux =>
    rw [hx] at h
    simp only [except_map_ok, except_bind_ok] at h
    cases hy : childResult y with
    | error e => rw [hy] at h; simp at h
    | ok uy =>
      rw [hy] at h
      simp only [except_map_ok, Except.ok.injEq] at h
      simp only [except_map_ok, except_bind_ok, Except.ok.injEq]
      rw [← h]
      apply applyUpd_comm
      rcases childResult_tag x ux hx with htx | htx
      · left; exact htx
      · rcases childResult_tag y uy hy with hty | hty
        · right; left; exact hty
        · right; right; rw [htx, hty]
          intro hc
          exact hxy (Option.some.inj hc)

/-- A successful `rootLoop` run transports along any permutation of the
children, provided the tags are pairwise distinct. -/
theorem rootLoop_perm {cs1 cs2 : List (String × PTree)} (hp : cs1.Perm cs2) :
    (cs1.map Prod.fst).Nodup →
    ∀ acc r, rootLoop cs1 acc = .ok r → rootLoop cs2 acc = .ok r := by
  induction hp with
  | nil => exact fun _ acc r h => h
  | cons x hrest ih =>
    intro hnd acc r hr
    simp only [rootLoop] at hr ⊢
    cases hx : rootStep acc x with
    | error e => rw [hx] at hr; simp at hr
    | ok acc1 =>
      rw [hx] at hr
      simp only [except_bind_ok] at hr ⊢
      rw [List.map_cons, List.nodup_cons] at hnd
      exact ih hnd.2 acc1 r hr
  | swap x y l =>
    intro hnd acc r hr
    rw [List.map_cons, List.map_cons, List.nodup_cons, List.mem_cons] at hnd
    have hxy : y.1 ≠ x.1 := fun hc => hnd.1 (Or.inl hc)
    simp only [rootLoop] at hr ⊢
    cases ha : rootStep acc y with
    | error e => rw [ha] at hr; simp at hr
    | ok a1 =>
      rw [ha] at hr
      simp only [except_bind_ok] at hr
      cases hb : rootStep a1 x with
      | error e => rw [hb] at hr; simp at hr
      | ok a2 =>
        rw [hb] at hr
        simp only [except_bind_ok] at hr
        have hcomm : (rootStep acc y >>= fun s1 => rootStep s1 x) = .ok a2 := by
          rw [ha]; simp only [except_bind_ok]; exact hb
        have hswapped := rootStep_comm acc y x hxy a2 hcomm
        cases hc : rootStep acc x with
        | error e => rw [hc] at hswapped; simp at hswapped
        | ok b1 =>
          rw [hc] at hswapped
          simp only [except_bind_ok] at hswapped ⊢
          rw [hswapped]
          simp only [except_bind_ok]
          exact hr
  | trans h1 h2 ih1 ih2 =>
    intro hnd acc r hr
    exact ih2 (((h1.map Prod.fst).nodup_iff).mp hnd) acc r (ih1 hnd acc r hr)

/-- `find?` is the head of the filtered list. -/
theorem find_eq_filter_head {α : Type} (p : α → Bool) (l : List α) :
    l.find? p = (l.filter p).head? := by
  induction l with
  | nil => rfl
  | cons a t ih =>
    by_cases h : p a
    · simp [List.find?_cons, List.filter_cons, h]
    · simp only [List.find?_cons, List.filter_cons, h]
      simpa using ih

/-- With pairwise distinct keys, at most one child matches a given key. -/
theorem filter_key_len (l : List (String × PTree)) (hnd : (l.map Prod.fst).Nodup) (k : String) :
    (l.filter (fun c => c.1 = k)).length ≤ 1 := by
  induction l with
  | nil => simp
  | cons a t ih =>
    rw [List.map_cons, List.nodup_cons] at hnd
    by_cases h : a.1 = k
    · have ht : t.filter (fun c => c.1 = k) = [] := by
        rw [List.filter_eq_nil_iff]
        intro c hc hck
        rw [decide_eq_true_eq] at hck
        have hm : c.1 ∈ t.map Prod.fst := List.mem_map_of_mem Prod.fst hc
        rw [hck, ← h] at hm
        exact hnd.1 hm
      simp [List.filter_cons, h, ht]
    · simp only [List.filter_cons, h, decide_False, Bool.false_eq_true, if_neg,
        not_false_eq_true]
      exact ih hnd.2

/-- Permuted lists of length at most one are equal. -/
theorem perm_eq_of_small {α : Type} {l1 l2 : List α} (h : l1.Perm l2) (hlen : l1.length ≤ 1) :
    l1 = l2 := by
  match l1, hlen with
  | [], _ => exact (List.Perm.eq_nil h.symm).symm
  | [a], _ =>
    have hl : l2.length = 1 := by rw [← h.length_eq]; rfl
    match l2, hl with
    | [b], _ =>
      have : b ∈ [a] := h.mem_iff.mpr (List.mem_singleton_self b)
      rw [List.mem_singleton] at this
      rw [this]

/-- Looking up a key whose occurrences are unique is invariant under
permutation of the children. -/
theorem find_key_perm {cs1 cs2 : List (String × PTree)} (hp : cs1.Perm cs2)
    (hnd : (cs1.map Prod.fst).Nodup) (k : String) :
    cs1.find? (fun c => c.1 = k) = cs2.find? (fun c => c.1 = k) := by
  rw [find_eq_filter_head, find_eq_filter_head,
    perm_eq_of_small (hp.filter _) (filter_key_len cs1 hnd k)]

/-- Nonempty paths resolve identically on two roots with permuted,
distinctly-tagged children. -/
theorem getPath_perm {cs1 cs2 : List (String × PTree)} (hp : cs1.Perm cs2)
    (hnd : (cs1.map Prod.fst).Nodup) (d : String) (p : List String) (hne : p ≠ []) :
    PTree.getPath p (PTree.mk d cs1) = PTree.getPath p (PTree.mk d cs2) := by
  match p, hne with
  | s :: rest, _ =>
    simp only [PTree.getPath, PTree.children]
    rw [find_key_perm hp hnd s]

/-- Splitting a path string always yields at least one segment. -/
theorem splitString_ne_nil (sep : Char) (s : String) : splitString sep s ≠ [] := by
  unfold splitString
  cases s.data with
  | nil => simp [splitCharsOnP]
  | cons c rest =>
    simp only [splitCharsOnP]
    by_cases h : (c = sep : Bool) <;> simp [h]

/-- `get<T>(path)` is invariant under permutation of distinctly-tagged
children. -/
theorem getReq_perm {α : Type} {cs1 cs2 : List (String × PTree)} (hp : cs1.Perm cs2)
    (hnd : (cs1.map Prod.fst).Nodup) (d : String) (path : String) (conv : String → Option α) :
    PTree.getReq (PTree.mk d cs1) path conv = PTree.getReq (PTree.mk d cs2) path conv := by
  unfold PTree.getReq
  rw [getPath_perm hp hnd d (splitString '.' path) (splitString_ne_nil '.' path)]

/-- `get<T>(path, default)` is invariant under permutation of
distinctly-tagged children. -/
theorem getDef_perm {α : Type} {cs1 cs2 : List (String × PTree)} (hp : cs1.Perm cs2)
    (hnd : (cs1.map Prod.fst).Nodup) (d : String) (path : String) (conv : String → Option α)
    (dv : α) :
    PTree.getDef (PTree.mk d cs1) path conv dv = PTree.getDef (PTree.mk d cs2) path conv dv := by
  unfold PTree.getDef
  rw [getPath_perm hp hnd d (splitString '.' path) (splitString_ne_nil '.' path)]

/-- The base-attribute block reads the same values on two roots with
permuted, distinctly-tagged children. -/
theorem parseBaseAttrs_perm {cs1 cs2 : List (String × PTree)} (hp : cs1.Perm cs2)
    (hnd : (cs1.map Prod.fst).Nodup) (d : String) :
    parseBaseAttrs (PTree.mk d cs1) = parseBaseAttrs (PTree.mk d cs2) := by
  unfold parseBaseAttrs
  rw [getReq_perm hp hnd d "<xmlattr>.guid", getReq_perm hp hnd d "<xmlattr>.fmiVersion",
    getReq_perm hp hnd d "<xmlattr>.modelName", getDef_perm hp hnd d "<xmlattr>.description",
    getDef_perm hp hnd d "<xmlattr>.author", getDef_perm hp hnd d "<xmlattr>.version",
    getDef_perm hp hnd d "<xmlattr>.license", getDef_perm hp hnd d "<xmlattr>.copyright",
    getDef_perm hp hnd d "<xmlattr>.generationTool",
    getDef_perm hp hnd d "<xmlattr>.generationDateAndTime",
    getDef_perm hp hnd d "<xmlattr>.numberOfEventIndicators",
    getDef_perm hp hnd d "<xmlattr>.variableNamingConvention"]

/-- C9: two documents whose `<fmiModelDescription>` roots differ only in the
order of their distinctly-tagged children parse to structurally equal
`ModelDescription` values (a successful parse of one is a successful parse of
the other, with the same result). -/
theorem c9_root_children_perm (td d : String) {cs1 cs2 : List (String × PTree)}
    (hp : cs1.Perm cs2) (hnd : (cs1.map Prod.fst).Nodup) (md : ModelDescription)
    (h : parseModelDescription (PTree.mk td [("fmiModelDescription", PTree.mk d cs1)]) =
      .ok md) :
    parseModelDescription (PTree.mk td [("fmiModelDescription", PTree.mk d cs2)]) =
      .ok md := by
  have h' : parseRoot (PTree.mk d cs1) = .ok md := h
  show parseRoot (PTree.mk d cs2) = .ok md
  unfold parseRoot at h' ⊢
  rw [parseBaseAttrs_perm hp hnd d] at h'
  cases hb : parseBaseAttrs (PTree.mk d cs2) with
  | error e => rw [hb] at h'; simp at h'
  | ok b =>
    rw [hb] at h'
    simp only [except_bind_ok, PTree.children] at h' ⊢
    cases hl : rootLoop cs1 { base := b, coSimulation := none, modelExchange := none } with
    | error e => rw [hl] at h'; simp at h'
    | ok acc =>
      rw [hl] at h'
      simp only [except_bind_ok] at h'
      rw [rootLoop_perm hp hnd _ acc hl]
      simpa using h'

/-- Root children for the C9 witness: attributes, then `<CoSimulation>`,
then `<ModelStructure>`. -/
def c9Children1 : List (String × PTree) :=
  [xmlAttrs [("fmiVersion", "2.0"), ("modelName", "M"), ("guid", "{g}")],
   ("CoSimulation", xmlElem [("modelIdentifier", "m")] []),
   ("ModelStructure", PTree.mk "" [])]

/-- The same children with `<ModelStructure>` moved before `<CoSimulation>`. -/
def c9Children2 : List (String × PTree) :=
  [xmlAttrs [("fmiVersion", "2.0"), ("modelName", "M"), ("guid", "{g}")],
   ("ModelStructure", PTree.mk "" []),
   ("CoSimulation", xmlElem [("modelIdentifier", "m")] [])]

/-- Witness for C9 at a concrete pair of documents: swapping the sibling
order of `<CoSimulation>` and `<ModelStructure>` yields the same parse. -/
theorem c9_root_children_perm_witness :
    parseModelDescription
        (PTree.mk "" [("fmiModelDescription", PTree.mk "" c9Children2)]) =
      .ok scenarioAResult :=
  @c9_root_children_perm "" "" c9Children1 c9Children2
    (by unfold c9Children1 c9Children2
        exact List.Perm.cons _ (List.Perm.swap _ _ _))
    (by decide) scenarioAResult (by rfl)

/-! ## C8: absent `ModelVariables` / `ModelStructure` leave empty collections -/

/-- An update not keyed to `ModelVariables` leaves the variable list alone. -/
theorem applyUpd_mv (u : RootUpd) (acc : RootAcc) (h : tagFor u ≠ some "ModelVariables") :
    (applyUpd u acc).base.modelVariables = acc.base.modelVariables := by
  cases u <;> first
    | rfl
    | (exfalso; exact h rfl)

/-- An update not keyed to `ModelStructure` leaves the structure alone. -/
theorem applyUpd_ms (u : RootUpd) (acc : RootAcc) (h : tagFor u ≠ some "ModelStructure") :
    (applyUpd u acc).base.modelStructure = acc.base.modelStructure := by
  cases u <;> first
    | rfl
    | (exfalso; exact h rfl)

/-- A successful root loop over children none of which is tagged
`ModelVariables` leaves the variable list unchanged. -/
theorem rootLoop_mv_preserve (cs : List (String × PTree))
    (hv : ∀ v ∈ cs, v.1 ≠ "ModelVariables") :
    ∀ acc r, rootLoop cs acc = .ok r → r.base.modelVariables = acc.base.modelVariables := by
  induction cs with
  | nil =>
    intro acc r h
    simp only [rootLoop] at h
    cases h
    rfl
  | cons v rest ih =>
    intro acc r h
    simp only [rootLoop] at h
    cases hx : rootStep acc v with
    | error e => rw [hx] at h; simp at h
    | ok acc1 =>
      rw [hx] at h
      simp only [except_bind_ok] at h
      have hrest := ih (fun w hw => hv w (List.mem_cons_of_mem v hw)) acc1 r h
      rw [hrest]
      rw [rootStep_eq] at hx
      cases hc : childResult v with
      | error e => rw [hc] at hx; simp at hx
      | ok u =>
        rw [hc] at hx
        simp only [except_map_ok, Except.ok.injEq] at hx
        rw [← hx]
        apply applyUpd_mv
        rcases childResult_tag v u hc with ht | ht
        · rw [ht]; simp
        · rw [ht]
          intro hcon
          exact hv v (List.mem_cons_self v rest) (Option.some.inj hcon)

/-- A successful root loop over children none of which is tagged
`ModelStructure` leaves the structure unchanged. -/
theorem rootLoop_ms_preserve (cs : List (String × PTree))
    (hv : ∀ v ∈ cs, v.1 ≠ "ModelStructure") :
    ∀ acc r, rootLoop cs acc = .ok r → r.base.modelStructure = acc.base.modelStructure := by
  induction cs with
  | nil =>
    intro acc r h
    simp only [rootLoop] at h
    cases h
    rfl
  | cons v rest ih =>
    intro acc r h
    simp only [rootLoop] at h
    cases hx : rootStep acc v with
    | error e => rw [hx] at h; simp at h
    | ok acc1 =>
      rw [hx] at h
      simp only [except_bind_ok] at h
      have hrest := ih (fun w hw => hv w (List.mem_cons_of_mem v hw)) acc1 r h
      rw [hrest]
      rw [rootStep_eq] at hx
      cases hc : childResult v with
      | error e => rw [hc] at hx; simp at hx
      | ok u =>
        rw [hc] at hx
        simp only [except_map_ok, Except.ok.injEq] at hx
        rw [← hx]
        apply applyUpd_ms
        rcases childResult_tag v u hc with ht | ht
        · rw [ht]; simp
        · rw [ht]
          intro hcon
          exact hv v (List.mem_cons_self v rest) (Option.some.inj hcon)

/-- The base-attribute block always starts the three overridable components
at their (spec-modelled) empty defaults. -/
theorem parseBaseAttrs_defaults (root : PTree) (b : ModelDescriptionBase)
    (h : parseBaseAttrs root = .ok b) :
    b.modelVariables = [] ∧
    b.modelStructure = { outputs := [], derivatives := [], initialUnknowns := [] } ∧
    b.defaultExperiment = none := by
  unfold parseBaseAttrs at h
  cases h1 : PTree.getReq root "<xmlattr>.guid" (fun s => some s) with
  | error e => rw [h1] at h; simp at h
  | ok g =>
    rw [h1] at h
    simp only [except_bind_ok] at h
    cases h2 : PTree.getReq root "<xmlattr>.fmiVersion" (fun s => some s) with
    | error e => rw [h2] at h; simp at h
    | ok fv =>
      rw [h2] at h
      simp only [except_bind_ok] at h
      cases h3 : PTree.getReq root "<xmlattr>.modelName" (fun s => some s) with
      | error e => rw [h3] at h; simp at h
      | ok mn =>
        rw [h3] at h
        simp only [except_bind_ok, except_pure_eq_ok, Except.ok.injEq] at h
        rw [← h]
        exact ⟨rfl, rfl, rfl⟩

/-- C8: when the root has no `<ModelVariables>` child the parsed variable
list is empty, and when it has no `<ModelStructure>` child the parsed
structure is the empty three-list record; the absence itself never makes
parsing fail (the witness exhibits a successful parse lacking both). -/
theorem c8_missing_collections_empty (td d : String) (cs : List (String × PTree))
    (md : ModelDescription)
    (h : parseModelDescription (PTree.mk td [("fmiModelDescription", PTree.mk d cs)]) =
      .ok md) :
    ((∀ v ∈ cs, v.1 ≠ "ModelVariables") → md.modelVariables = []) ∧
    ((∀ v ∈ cs, v.1 ≠ "ModelStructure") →
      md.modelStructure = { outputs := [], derivatives := [], initialUnknowns := [] }) := by
  have h' : parseRoot (PTree.mk d cs) = .ok md := h
  unfold parseRoot at h'
  cases hb : parseBaseAttrs (PTree.mk d cs) with
  | error e => rw [hb] at h'; simp at h'
  | ok b =>
    rw [hb] at h'
    simp only [except_bind_ok, PTree.children] at h'
    cases hl : rootLoop cs { base := b, coSimulation := none, modelExchange := none } with
    | error e => rw [hl] at h'; simp at h'
    | ok acc =>
      rw [hl] at h'
      simp only [except_bind_ok, except_pure_eq_ok, Except.ok.injEq] at h'
      obtain ⟨hbv, hbs, _⟩ := parseBaseAttrs_defaults _ b hb
      constructor
      · intro hno
        have hpres := rootLoop_mv_preserve cs hno _ acc hl
        rw [← h']
        show acc.base.modelVariables = []
        rw [hpres]
        exact hbv
      · intro hno
        have hpres := rootLoop_ms_preserve cs hno _ acc hl
        rw [← h']
        show acc.base.modelStructure = _
        rw [hpres]
        exact hbs

/-- Root children for the C8 witness: attributes and a `<CoSimulation>` only —
no `<ModelVariables>` and no `<ModelStructure>`. -/
def c8Children : List (String × PTree) :=
  [xmlAttrs [("fmiVersion", "2.0"), ("modelName", "M"), ("guid", "{g}")],
   ("CoSimulation", xmlElem [("modelIdentifier", "m")] [])]

/-- Witness for C8 at a concrete document lacking both collections: parsing
succeeds and both collections are empty. -/
theorem c8_missing_collections_empty_witness :
    scenarioAResult.modelVariables = [] ∧
    scenarioAResult.modelStructure =
      { outputs := [], derivatives := [], initialUnknowns := [] } := by
  have h := c8_missing_collections_empty "" "" c8Children scenarioAResult (by rfl)
  exact ⟨h.1 (by decide), h.2 (by decide)⟩
